import Mathlib

/-!
# Verification of the CLIStyle escape-sequence engine

A shallow embedding of `src/clistyle.hpp` (namespace `CLIStyle`), a C++ header
that wraps text in ANSI/VT escape sequences and lazily enables VT processing.

Modelling conventions:
* `std::string` is Lean `String`; `std::ostream` is modelled as its buffer, a
  `String`, and `os << x` as appending `x` to the buffer.
* The `unordered_map` lookup tables (`styles`, `color_text`, `color_background`)
  are association lists; `mapLookup` models `operator[]` on a map whose keys are
  all present (a missing key yields the default-constructed empty string).
* The process-wide mutable flag `handleVTSequences` becomes explicit state
  (`VTState`), threaded through every facade operation that reads or writes it.
  `VTState.enablerCalls` is instrumentation: a call counter on the enabler, as
  the spec's testable property suggests ("observable via a call counter on a
  mock enabler").  We model the non-Windows `enableVTSequences` (line 136-138),
  which just sets the flag.
* `exit(EXIT_FAILURE)` (in `checkPosition`) is modelled by returning `none`.
* `uint8_t` template parameters become `Nat` arguments; where overflow or the
  0..255 bound matters the theorems carry explicit `≤ 255` hypotheses.
-/

namespace CLIStyle

/-- The `styles` map (src lines 53-59): style names to ANSI escape codes. -/
def styles : List (String × String) :=
  [ ("bold", "\x1b[1m"),
    ("italic", "\x1b[3m"),
    ("underline", "\x1b[4m"),
    ("reverse", "\x1b[7m") ]

/-- The `color_text` map (src lines 62-79): color names to foreground codes. -/
def color_text : List (String × String) :=
  [ ("grey", "\x1b[30m"),
    ("red", "\x1b[31m"),
    ("green", "\x1b[32m"),
    ("yellow", "\x1b[33m"),
    ("blue", "\x1b[34m"),
    ("magenta", "\x1b[35m"),
    ("cyan", "\x1b[36m"),
    ("white", "\x1b[37m"),
    ("bright grey", "\x1b[1;30m"),
    ("bright red", "\x1b[1;31m"),
    ("bright green", "\x1b[1;32m"),
    ("bright yellow", "\x1b[1;33m"),
    ("bright blue", "\x1b[1;34m"),
    ("bright magenta", "\x1b[1;35m"),
    ("bright cyan", "\x1b[1;36m"),
    ("bright white", "\x1b[1;37m") ]

/-- The `color_background` map (src lines 82-99): color names to background codes. -/
def color_background : List (String × String) :=
  [ ("grey", "\x1b[40m"),
    ("red", "\x1b[41m"),
    ("green", "\x1b[42m"),
    ("yellow", "\x1b[43m"),
    ("blue", "\x1b[44m"),
    ("magenta", "\x1b[45m"),
    ("cyan", "\x1b[46m"),
    ("white", "\x1b[47m"),
    ("bright grey", "\x1b[1;40m"),
    ("bright red", "\x1b[1;41m"),
    ("bright green", "\x1b[1;42m"),
    ("bright yellow", "\x1b[1;43m"),
    ("bright blue", "\x1b[1;44m"),
    ("bright magenta", "\x1b[1;45m"),
    ("bright cyan", "\x1b[1;46m"),
    ("bright white", "\x1b[1;47m") ]

/-- Lookup modelling `unordered_map::operator[]` on the (constant, fully populated) tables: the
value mapped to `key`, or the default-constructed `""` for an absent key. -/
def mapLookup (m : List (String × String)) (key : String) : String :=
  match m.find? (fun p => p.1 == key) with
  | some p => p.2
  | none => ""

/-- Constant `constexpr auto RESET_STYLE = "\033[0m"` (src line 101). -/
def RESET_STYLE : String := "\x1b[0m"

/-- Constant `constexpr uint8_t TEXT = 1` (src line 236). -/
def TEXT : Nat := 1

/-- Constant `constexpr uint8_t BACKGROUND = 0` (src line 237). -/
def BACKGROUND : Nat := 0

/-- The process-wide styling state: the flag `handleVTSequences` (src line 103)
plus instrumentation counting invocations of the capability enabler. -/
structure VTState where
  handleVTSequences : Bool
  enablerCalls : Nat
deriving DecidableEq, Repr

/-- Initial process state: `inline bool handleVTSequences = false` (line 103),
and the mock enabler's call counter at zero. -/
def initState : VTState := ⟨false, 0⟩

/-- The non-Windows `enableVTSequences` (src lines 136-138): sets the flag to
`true`.  The counter increment is the mock-enabler instrumentation. -/
def enableVTSequences (s : VTState) : VTState :=
  { handleVTSequences := true, enablerCalls := s.enablerCalls + 1 }

/-- The gating idiom appearing verbatim in the gated facade functions:
`if (!_private::handleVTSequences) _private::enableVTSequences(...)`. -/
def gate (s : VTState) : VTState :=
  if !s.handleVTSequences then enableVTSequences s else s

/-- Conditional gate: `gateIf true` is the gate line; `gateIf false` marks a facade function whose
source body does not contain the gate line at all. -/
def gateIf (b : Bool) (s : VTState) : VTState :=
  if b then gate s else s

/-- Source `checkPosition` (src lines 228-233): `exit(EXIT_FAILURE)` (modelled as
`none`) unless the position is `TEXT` (1) or `BACKGROUND` (0). -/
def checkPosition (position : Nat) : Option Unit :=
  if position ≠ 1 ∧ position ≠ 0 then none else some ()

/-- Source `getColor<position, red, green, blue>` (src lines 150-158): the 24-bit RGB
escape sequence, `38;2` for text (position 1), `48;2` otherwise. -/
def getColor (position red green blue : Nat) : String :=
  if position = 1 then
    "\x1b[38;2;" ++ Nat.repr red ++ ";" ++ Nat.repr green ++ ";" ++ Nat.repr blue ++ "m"
  else
    "\x1b[48;2;" ++ Nat.repr red ++ ";" ++ Nat.repr green ++ ";" ++ Nat.repr blue ++ "m"

/-- Source `colorText<r,g,b>(text)` (src lines 171-175): foreground RGB color,
then the text, then the reset style. -/
def colorText (red green blue : Nat) (text : String) : String :=
  getColor 1 red green blue ++ text ++ RESET_STYLE

/-- Source `colorText<r,g,b>()` (src lines 185-189): just the foreground RGB sequence. -/
def colorTextSeq (red green blue : Nat) : String :=
  getColor 1 red green blue

/-- Source `colorBackground<r,g,b>(text)` (src lines 202-206): background RGB color,
then the text, then the reset style. -/
def colorBackground (red green blue : Nat) (text : String) : String :=
  getColor 0 red green blue ++ text ++ RESET_STYLE

/-- Source `colorBackground<r,g,b>()` (src lines 219-223): just the background RGB
sequence. -/
def colorBackgroundSeq (red green blue : Nat) : String :=
  getColor 0 red green blue

/-! ## The RGB facade (src lines 251-347)

All six overloads contain the capability-gate line. -/

/-- Source `color<position,r,g,b>(ostream&)` (src lines 251-257): check the position
(exiting on a bad one), gate, then write the RGB sequence to the stream. -/
def colorPosStream (position red green blue : Nat) (s : VTState) (os : String) :
    Option (VTState × String) :=
  match checkPosition position with
  | none => none
  | some _ =>
    let s := gate s
    some (s, os ++ getColor position red green blue)

/-- Source `color<position,r,g,b>(const string&)` (src lines 271-276): check the
position, gate, then wrap the text in the RGB color for text or background. -/
def colorPos (position red green blue : Nat) (s : VTState) (text : String) :
    Option (VTState × String) :=
  match checkPosition position with
  | none => none
  | some _ =>
    let s := gate s
    some (s, if position = TEXT then colorText red green blue text
             else colorBackground red green blue text)

/-- Source `color<r,g,b>(const string&)` (src lines 289-293, no position parameter):
gate, then wrap the text in the foreground RGB color. -/
def color (red green blue : Nat) (s : VTState) (text : String) : VTState × String :=
  let s := gate s
  (s, colorText red green blue text)

/-- Source `color<r,g,b>(ostream&)` (src lines 306-311, no position parameter): gate,
then write `colorBackground<r,g,b>()` — the BACKGROUND sequence — to the
stream. -/
def colorStream (red green blue : Nat) (s : VTState) (os : String) : VTState × String :=
  let s := gate s
  (s, os ++ colorBackgroundSeq red green blue)

/-- Source `on_color<r,g,b>(const string&)` (src lines 324-328): gate, then wrap the
text using `colorText<r,g,b>` — the FOREGROUND helper. -/
def on_color (red green blue : Nat) (s : VTState) (text : String) : VTState × String :=
  let s := gate s
  (s, colorText red green blue text)

/-- Source `on_color<r,g,b>(ostream&)` (src lines 342-347): gate, then write
`colorBackground<r,g,b>()` to the stream. -/
def on_colorStream (red green blue : Nat) (s : VTState) (os : String) : VTState × String :=
  let s := gate s
  (s, os ++ colorBackgroundSeq red green blue)

/-! ## The 16 named colors (src lines 349-1744)

Each of the 16 names (8 hues, each in a plain and a `bright` variant) exposes
six overloads following one identical pattern; we embed the pattern once,
parametrised by the hue and brightness.  The only textual difference between
the 96 source functions besides the map key is the capability-gate line
`if (!handleVTSequences) enableVTSequences(...)`: the six plain-`grey`
overloads (src lines 360-436) contain it, while the `bright_grey` overloads
(448-521) and every other hue's overloads (`red` 535-609 through
`bright_white` 1658-1744) do not.  `namedGates` records exactly which
overload families carry the line. -/

/-- The 8 base hues, in the source tables' order. -/
inductive Hue
  | grey | red | green | yellow | blue | magenta | cyan | white
deriving DecidableEq, Repr, Fintype

/-- The map-key fragment for a hue. -/
def Hue.name : Hue → String
  | .grey => "grey"
  | .red => "red"
  | .green => "green"
  | .yellow => "yellow"
  | .blue => "blue"
  | .magenta => "magenta"
  | .cyan => "cyan"
  | .white => "white"

/-- The lookup key used by a named-color function: the hue name, with `"bright "`
in front for the bright variant. -/
def colorName (bright : Bool) (h : Hue) : String :=
  if bright then "bright " ++ h.name else h.name

/-- Whether the source overloads for this (brightness, hue) contain the
capability-gate line: only the plain `grey` family does. -/
def namedGates : Bool → Hue → Bool
  | false, .grey => true
  | _, _ => false

/-- The `<position>`-templated ostream overload of a named color, e.g.
`grey<position>(ostream&)` (src 360-366, gate before the position check) and
`red<position>(ostream&)` (src 535-540, no gate): write the text-table or
background-table sequence according to the position. -/
def namedPosStream (bright : Bool) (h : Hue) (position : Nat) (s : VTState)
    (os : String) : Option (VTState × String) :=
  let s := gateIf (namedGates bright h) s
  match checkPosition position with
  | none => none
  | some _ =>
    some (s, os ++ (if position = TEXT then mapLookup color_text (colorName bright h)
                    else mapLookup color_background (colorName bright h)))

/-- The `<position>`-templated string overload of a named color, e.g.
`grey<position>(const string&)` (src 378-384, gate first) and
`red<position>(const string&)` (src 552-557, no gate): the selected table
sequence, then the text, then the reset style. -/
def namedPos (bright : Bool) (h : Hue) (position : Nat) (s : VTState)
    (text : String) : Option (VTState × String) :=
  let s := gateIf (namedGates bright h) s
  match checkPosition position with
  | none => none
  | some _ =>
    some (s, (if position = TEXT then mapLookup color_text (colorName bright h)
              else mapLookup color_background (colorName bright h))
             ++ text ++ RESET_STYLE)

/-- The plain string overload of a named color, e.g. `grey(const string&)`
(src 393-397, gated) and `red(const string&)` (src 567-570, not gated): the
text-table sequence, then the text, then the reset style. -/
def namedStr (bright : Bool) (h : Hue) (s : VTState) (text : String) :
    VTState × String :=
  let s := gateIf (namedGates bright h) s
  (s, mapLookup color_text (colorName bright h) ++ text ++ RESET_STYLE)

/-- The plain ostream overload of a named color, e.g. `grey(ostream&)`
(src 406-410, gated) and `red(ostream&)` (src 580-583, not gated): write the
text-table sequence to the stream. -/
def namedStream (bright : Bool) (h : Hue) (s : VTState) (os : String) :
    VTState × String :=
  let s := gateIf (namedGates bright h) s
  (s, os ++ mapLookup color_text (colorName bright h))

/-- The `on_` string overload of a named color, e.g. `on_grey(const string&)`
(src 419-423, gated) and `on_red(const string&)` (src 593-596, not gated): the
background-table sequence, then the text, then the reset style. -/
def namedOnStr (bright : Bool) (h : Hue) (s : VTState) (text : String) :
    VTState × String :=
  let s := gateIf (namedGates bright h) s
  (s, mapLookup color_background (colorName bright h) ++ text ++ RESET_STYLE)

/-- The `on_` ostream overload of a named color, e.g. `on_grey(ostream&)`
(src 432-436, gated) and `on_red(ostream&)` (src 606-609, not gated): write the
background-table sequence to the stream. -/
def namedOnStream (bright : Bool) (h : Hue) (s : VTState) (os : String) :
    VTState × String :=
  let s := gateIf (namedGates bright h) s
  (s, os ++ mapLookup color_background (colorName bright h))

/-! ## Styles and reset (src lines 1746-1877)

All of these contain the capability-gate line.  Note that the style functions
write their escape sequences as literals; the `styles` map is not consulted. -/

/-- Source `bold(ostream&)` (src 1755-1758). -/
def boldStream (s : VTState) (os : String) : VTState × String :=
  (gate s, os ++ "\x1b[1m")

/-- Source `bold(const string&)` (src 1767-1771). -/
def bold (s : VTState) (text : String) : VTState × String :=
  (gate s, "\x1b[1m" ++ text ++ RESET_STYLE)

/-- Source `italic(ostream&)` (src 1782-1785). -/
def italicStream (s : VTState) (os : String) : VTState × String :=
  (gate s, os ++ "\x1b[3m")

/-- Source `italic(const string&)` (src 1794-1798). -/
def italic (s : VTState) (text : String) : VTState × String :=
  (gate s, "\x1b[3m" ++ text ++ RESET_STYLE)

/-- Source `underline(ostream&)` (src 1809-1812). -/
def underlineStream (s : VTState) (os : String) : VTState × String :=
  (gate s, os ++ "\x1b[4m")

/-- Source `underline(const string&)` (src 1821-1825). -/
def underline (s : VTState) (text : String) : VTState × String :=
  (gate s, "\x1b[4m" ++ text ++ RESET_STYLE)

/-- Source `reverse(ostream&)` (src 1836-1839). -/
def reverseStream (s : VTState) (os : String) : VTState × String :=
  (gate s, os ++ "\x1b[7m")

/-- Source `reverse(const string&)` (src 1848-1852). -/
def reverse (s : VTState) (text : String) : VTState × String :=
  (gate s, "\x1b[7m" ++ text ++ RESET_STYLE)

/-- Source `reset(ostream&)` (src 1862-1866): write `RESET_STYLE` to the stream. -/
def resetStream (s : VTState) (os : String) : VTState × String :=
  (gate s, os ++ RESET_STYLE)

/-- Source `reset(const string&)` (src 1874-1877): the text followed by `RESET_STYLE`
— no opening sequence is prepended. -/
def reset (s : VTState) (text : String) : VTState × String :=
  (gate s, text ++ RESET_STYLE)

/-! ## Invocations of the facade

`Op` enumerates every entry point of the facade together with its arguments,
so that process-wide traces (sequences of styling calls) can be reasoned
about.  `step` dispatches an `Op` to the corresponding embedded function;
`none` means the process exited (`checkPosition` failure). -/

/-- One invocation of a facade entry point, with its arguments. -/
inductive Op where
  | namedPosStream (bright : Bool) (h : Hue) (position : Nat) (os : String)
  | namedPos (bright : Bool) (h : Hue) (position : Nat) (text : String)
  | namedStr (bright : Bool) (h : Hue) (text : String)
  | namedStream (bright : Bool) (h : Hue) (os : String)
  | namedOnStr (bright : Bool) (h : Hue) (text : String)
  | namedOnStream (bright : Bool) (h : Hue) (os : String)
  | colorPosStream (position r g b : Nat) (os : String)
  | colorPos (position r g b : Nat) (text : String)
  | color (r g b : Nat) (text : String)
  | colorStream (r g b : Nat) (os : String)
  | on_color (r g b : Nat) (text : String)
  | on_colorStream (r g b : Nat) (os : String)
  | bold (text : String)
  | boldStream (os : String)
  | italic (text : String)
  | italicStream (os : String)
  | underline (text : String)
  | underlineStream (os : String)
  | reverse (text : String)
  | reverseStream (os : String)
  | reset (text : String)
  | resetStream (os : String)
deriving DecidableEq, Repr

/-- Run one invocation: the state after it plus its output (for a string form,
the returned string; for a stream form, the stream buffer after the write).
`none`: the process exited inside `checkPosition`. -/
def step : Op → VTState → Option (VTState × String)
  | .namedPosStream b h p os, s => namedPosStream b h p s os
  | .namedPos b h p t, s => namedPos b h p s t
  | .namedStr b h t, s => some (namedStr b h s t)
  | .namedStream b h os, s => some (namedStream b h s os)
  | .namedOnStr b h t, s => some (namedOnStr b h s t)
  | .namedOnStream b h os, s => some (namedOnStream b h s os)
  | .colorPosStream p r g bl os, s => colorPosStream p r g bl s os
  | .colorPos p r g bl t, s => colorPos p r g bl s t
  | .color r g bl t, s => some (color r g bl s t)
  | .colorStream r g bl os, s => some (colorStream r g bl s os)
  | .on_color r g bl t, s => some (on_color r g bl s t)
  | .on_colorStream r g bl os, s => some (on_colorStream r g bl s os)
  | .bold t, s => some (bold s t)
  | .boldStream os, s => some (boldStream s os)
  | .italic t, s => some (italic s t)
  | .italicStream os, s => some (italicStream s os)
  | .underline t, s => some (underline s t)
  | .underlineStream os, s => some (underlineStream s os)
  | .reverse t, s => some (reverse s t)
  | .reverseStream os, s => some (reverseStream s os)
  | .reset t, s => some (reset s t)
  | .resetStream os, s => some (resetStream s os)

/-- The state after one invocation (the state is frozen if the process
exited). -/
def stepState (op : Op) (s : VTState) : VTState :=
  match step op s with
  | none => s
  | some p => p.1

/-- Run a sequence of invocations from a state; an exit stops the run. -/
def run (s : VTState) : List Op → VTState
  | [] => s
  | op :: ops =>
    match step op s with
    | none => s
    | some p => run p.1 ops

/-- The values of `handleVTSequences` observed after each successive
invocation of a run (ending early if the process exits). -/
def flagTrace (s : VTState) : List Op → List Bool
  | [] => []
  | op :: ops =>
    match step op s with
    | none => []
    | some p => p.1.handleVTSequences :: flagTrace p.1 ops

/-- Number of `false → true` transitions along a Boolean trace starting from a
given previous value. -/
def riseCount : Bool → List Bool → Nat
  | _, [] => 0
  | prev, b :: rest => (if !prev && b then 1 else 0) + riseCount b rest

/-- Whether this invocation executes the capability-gate line: the six RGB
facade overloads, the plain-`grey` family, the styles and `reset` contain the
line; in `color`/`on_color` position-templated overloads it is reached only
when `checkPosition` passes, while the `grey` position-templated overloads
gate before checking the position. -/
def triggers : Op → Bool
  | .namedPosStream b h _ _ => namedGates b h
  | .namedPos b h _ _ => namedGates b h
  | .namedStr b h _ => namedGates b h
  | .namedStream b h _ => namedGates b h
  | .namedOnStr b h _ => namedGates b h
  | .namedOnStream b h _ => namedGates b h
  | .colorPosStream p _ _ _ _ => p == 1 || p == 0
  | .colorPos p _ _ _ _ => p == 1 || p == 0
  | _ => true

/-- Whether the invocation avoids the `checkPosition` exit (positions, where
present, are `TEXT` or `BACKGROUND`). -/
def validOp : Op → Bool
  | .namedPosStream _ _ p _ => p == 1 || p == 0
  | .namedPos _ _ p _ => p == 1 || p == 0
  | .colorPosStream p _ _ _ _ => p == 1 || p == 0
  | .colorPos p _ _ _ _ => p == 1 || p == 0
  | _ => true

/-! ## Requests

The spec's notion of a styling request: a named color with an explicit target,
an RGB triple with an explicit target, or a text style.  `resolve` is the
escape sequence the source resolves for the request (table lookup or
`getColor`); `wrapOutput` and `streamOutput` are the source's string-wrapping
and stream-writing forms for the request. -/

/-- The four text styles. -/
inductive TextStyle
  | bold | italic | underline | reverse
deriving DecidableEq, Repr, Fintype

/-- The literal escape sequence each style function writes (src 1757, 1784,
1811, 1838). -/
def styleSeq : TextStyle → String
  | .bold => "\x1b[1m"
  | .italic => "\x1b[3m"
  | .underline => "\x1b[4m"
  | .reverse => "\x1b[7m"

/-- A styling request: named color, RGB color (each with a target position:
`TEXT` = 1 or `BACKGROUND` = 0), or text style. -/
inductive Request where
  | named (bright : Bool) (h : Hue) (position : Nat)
  | rgb (position r g b : Nat)
  | style (st : TextStyle)
deriving DecidableEq, Repr

/-- Whether the request's target position is one of the two defined values. -/
def validReq : Request → Bool
  | .named _ _ p => p == 1 || p == 0
  | .rgb p _ _ _ => p == 1 || p == 0
  | .style _ => true

/-- The escape sequence the source resolves for a request: a table lookup for
named colors, `getColor` for RGB, the literal style sequence for styles. -/
def resolve : Request → String
  | .named b h p =>
    if p = TEXT then mapLookup color_text (colorName b h)
    else mapLookup color_background (colorName b h)
  | .rgb p r g b => getColor p r g b
  | .style st => styleSeq st

/-- The string-wrapping form of a request: the `<position>`-templated string
overload for named colors, `color<position,r,g,b>(const string&)` for RGB, and
the style string overloads.  `none`: `checkPosition` exited. -/
def wrapOutput (rq : Request) (s : VTState) (text : String) : Option String :=
  match rq with
  | .named b h p => (namedPos b h p s text).map Prod.snd
  | .rgb p r g b => (colorPos p r g b s text).map Prod.snd
  | .style .bold => some (bold s text).2
  | .style .italic => some (italic s text).2
  | .style .underline => some (underline s text).2
  | .style .reverse => some (reverse s text).2

/-- The stream form of a request: the `<position>`-templated ostream overload
for named colors, `color<position,r,g,b>(ostream&)` for RGB, and the style
ostream overloads, applied to a stream holding `os`. -/
def streamOutput (rq : Request) (s : VTState) (os : String) :
    Option (VTState × String) :=
  match rq with
  | .named b h p => namedPosStream b h p s os
  | .rgb p r g b => colorPosStream p r g b s os
  | .style .bold => some (boldStream s os)
  | .style .italic => some (italicStream s os)
  | .style .underline => some (underlineStream s os)
  | .style .reverse => some (reverseStream s os)

/-! ## Escape-sequence structure and stripping

Claim-side notions: what it means for a string to be a single CSI sequence
`ESC [ ... m`, and the operation of removing every (leftmost, shortest)
substring of that form from a string. -/

/-- A single CSI sequence: `ESC [`, a body free of `ESC` and of `m`, then
`m`. -/
def IsCsi (str : String) : Prop :=
  ∃ body : List Char,
    str.data = '\x1b' :: '[' :: (body ++ [ 'm' ]) ∧ 'm' ∉ body ∧ '\x1b' ∉ body

/-- Whether the two-byte sequence `ESC [` occurs in the character list. -/
def hasEscBr : List Char → Bool
  | [] => false
  | c :: rest => (c == '\x1b' && rest.head? == some '[') || hasEscBr rest

/-- One left-to-right pass removing escape sequences.  With `skipping = false`,
a character is kept unless it is an `ESC` immediately followed by `[`, which
starts a to-be-removed sequence; with `skipping = true`, characters are
discarded up to and including the first `m`. -/
def stripAux : Bool → List Char → List Char
  | _, [] => []
  | true, c :: rest => if c = 'm' then stripAux false rest else stripAux true rest
  | false, c :: rest =>
    if c = '\x1b' ∧ rest.head? = some '[' then stripAux true rest
    else c :: stripAux false rest

/-- Modelled from the claim's words: remove every maximal (leftmost, extending
to the first terminating `m`) substring of the form `ESC '[' ... 'm'`;
characters not part of such a substring — including lone `ESC` bytes not
followed by `[` — pass through unmodified. -/
def stripEsc (l : List Char) : List Char := stripAux false l

/-- Executable check for `IsCsi`: the data starts with `ESC [`, ends with `m`,
and the part in between contains neither `m` nor `ESC`. -/
def isCsiList : List Char → Bool
  | c1 :: c2 :: rest =>
    c1 == '\x1b' && c2 == '[' && rest.getLast? == some 'm'
      && !rest.dropLast.contains 'm' && !rest.dropLast.contains '\x1b'
  | _ => false

/-- Executable check for `IsCsi` on a string. -/
def isCsiB (str : String) : Bool := isCsiList str.data

/-- Modelled from the spec's words: `str` is the decimal digit string of `n`,
with no leading zeros. -/
def isDecimalNoLeadZeros (n : Nat) (str : String) : Prop :=
  str.data ≠ [] ∧ (∀ c ∈ str.data, c.isDigit = true) ∧
  (1 < str.data.length → str.data.head? ≠ some '0') ∧
  str.data.foldl (fun a c => a * 10 + (c.toNat - 48)) 0 = n

instance (n : Nat) (str : String) : Decidable (isDecimalNoLeadZeros n str) := by
  unfold isDecimalNoLeadZeros
  infer_instance

/-- The hue at index `k`, in the order the claims (and §6 of the spec) list:
grey, red, green, yellow, blue, magenta, cyan, white. -/
def hueAt : Fin 8 → Hue
  | 0 => .grey
  | 1 => .red
  | 2 => .green
  | 3 => .yellow
  | 4 => .blue
  | 5 => .magenta
  | 6 => .cyan
  | 7 => .white

end CLIStyle

namespace CLIStyle

theorem gate_flag (s : VTState) : (gate s).handleVTSequences = true := by
  unfold gate enableVTSequences
  split <;> simp_all

theorem gateIf_flag (b : Bool) (s : VTState) :
    (gateIf b s).handleVTSequences = (b || s.handleVTSequences) := by
  cases b <;> simp [gateIf, gate_flag]

theorem gate_calls (s : VTState) :
    (gate s).enablerCalls = s.enablerCalls + (if s.handleVTSequences then 0 else 1) := by
  unfold gate enableVTSequences
  cases h : s.handleVTSequences <;> simp [h]

theorem gateIf_calls (b : Bool) (s : VTState) :
    (gateIf b s).enablerCalls
      = s.enablerCalls + (if b && !s.handleVTSequences then 1 else 0) := by
  cases b <;> cases h : s.handleVTSequences <;> simp [gateIf, gate_calls, h]

theorem gate_eq_gateIf (s : VTState) : gate s = gateIf true s := rfl

theorem checkPosition_eq_some (pos : Nat) (u : Unit)
    (h : checkPosition pos = some u) : (pos == 1 || pos == 0) = true := by
  by_cases h1 : pos = 1
  · simp [h1]
  · by_cases h0 : pos = 0
    · simp [h0]
    · simp [checkPosition, h1, h0] at h

theorem step_some_spec (op : Op) (s : VTState) (p : VTState × String)
    (hs : step op s = some p) :
    p.1.handleVTSequences = (s.handleVTSequences || triggers op) ∧
    p.1.enablerCalls = s.enablerCalls
      + (if triggers op && !s.handleVTSequences then 1 else 0) := by
  cases op with
  | namedPosStream b h pos os =>
    cases hcp : checkPosition pos with
    | none => simp [step, namedPosStream, hcp] at hs
    | some u =>
      simp only [step, namedPosStream, hcp, Option.some.injEq] at hs
      subst hs
      simp [triggers, gateIf_flag, gateIf_calls, Bool.or_comm]
  | namedPos b h pos t =>
    cases hcp : checkPosition pos with
    | none => simp [step, namedPos, hcp] at hs
    | some u =>
      simp only [step, namedPos, hcp, Option.some.injEq] at hs
      subst hs
      simp [triggers, gateIf_flag, gateIf_calls, Bool.or_comm]
  | namedStr b h t =>
    simp only [step, namedStr, Option.some.injEq] at hs
    subst hs
    simp [triggers, gateIf_flag, gateIf_calls, Bool.or_comm]
  | namedStream b h os =>
    simp only [step, namedStream, Option.some.injEq] at hs
    subst hs
    simp [triggers, gateIf_flag, gateIf_calls, Bool.or_comm]
  | namedOnStr b h t =>
    simp only [step, namedOnStr, Option.some.injEq] at hs
    subst hs
    simp [triggers, gateIf_flag, gateIf_calls, Bool.or_comm]
  | namedOnStream b h os =>
    simp only [step, namedOnStream, Option.some.injEq] at hs
    subst hs
    simp [triggers, gateIf_flag, gateIf_calls, Bool.or_comm]
  | colorPosStream pos r g bl os =>
    cases hcp : checkPosition pos with
    | none => simp [step, colorPosStream, hcp] at hs
    | some u =>
      have hv := checkPosition_eq_some pos u hcp
      simp only [step, colorPosStream, hcp, Option.some.injEq] at hs
      subst hs
      simp [triggers, hv, gate_eq_gateIf, gateIf_flag, gateIf_calls, Bool.or_comm]
  | colorPos pos r g bl t =>
    cases hcp : checkPosition pos with
    | none => simp [step, colorPos, hcp] at hs
    | some u =>
      have hv := checkPosition_eq_some pos u hcp
      simp only [step, colorPos, hcp, Option.some.injEq] at hs
      subst hs
      simp [triggers, hv, gate_eq_gateIf, gateIf_flag, gateIf_calls, Bool.or_comm]
  | color r g bl t =>
    simp only [step, color, Option.some.injEq] at hs
    subst hs
    simp [triggers, gate_eq_gateIf, gateIf_flag, gateIf_calls, Bool.or_comm]
  | colorStream r g bl os =>
    simp only [step, colorStream, Option.some.injEq] at hs
    subst hs
    simp [triggers, gate_eq_gateIf, gateIf_flag, gateIf_calls, Bool.or_comm]
  | on_color r g bl t =>
    simp only [step, on_color, Option.some.injEq] at hs
    subst hs
    simp [triggers, gate_eq_gateIf, gateIf_flag, gateIf_calls, Bool.or_comm]
  | on_colorStream r g bl os =>
    simp only [step, on_colorStream, Option.some.injEq] at hs
    subst hs
    simp [triggers, gate_eq_gateIf, gateIf_flag, gateIf_calls, Bool.or_comm]
  | bold t =>
    simp only [step, bold, Option.some.injEq] at hs
    subst hs
    simp [triggers, gate_eq_gateIf, gateIf_flag, gateIf_calls, Bool.or_comm]
  | boldStream os =>
    simp only [step, boldStream, Option.some.injEq] at hs
    subst hs
    simp [triggers, gate_eq_gateIf, gateIf_flag, gateIf_calls, Bool.or_comm]
  | italic t =>
    simp only [step, italic, Option.some.injEq] at hs
    subst hs
    simp [triggers, gate_eq_gateIf, gateIf_flag, gateIf_calls, Bool.or_comm]
  | italicStream os =>
    simp only [step, italicStream, Option.some.injEq] at hs
    subst hs
    simp [triggers, gate_eq_gateIf, gateIf_flag, gateIf_calls, Bool.or_comm]
  | underline t =>
    simp only [step, underline, Option.some.injEq] at hs
    subst hs
    simp [triggers, gate_eq_gateIf, gateIf_flag, gateIf_calls, Bool.or_comm]
  | underlineStream os =>
    simp only [step, underlineStream, Option.some.injEq] at hs
    subst hs
    simp [triggers, gate_eq_gateIf, gateIf_flag, gateIf_calls, Bool.or_comm]
  | reverse t =>
    simp only [step, reverse, Option.some.injEq] at hs
    subst hs
    simp [triggers, gate_eq_gateIf, gateIf_flag, gateIf_calls, Bool.or_comm]
  | reverseStream os =>
    simp only [step, reverseStream, Option.some.injEq] at hs
    subst hs
    simp [triggers, gate_eq_gateIf, gateIf_flag, gateIf_calls, Bool.or_comm]
  | reset t =>
    simp only [step, reset, Option.some.injEq] at hs
    subst hs
    simp [triggers, gate_eq_gateIf, gateIf_flag, gateIf_calls, Bool.or_comm]
  | resetStream os =>
    simp only [step, resetStream, Option.some.injEq] at hs
    subst hs
    simp [triggers, gate_eq_gateIf, gateIf_flag, gateIf_calls, Bool.or_comm]

end CLIStyle

namespace CLIStyle

theorem state_eq (s t : VTState)
    (h1 : s.handleVTSequences = t.handleVTSequences)
    (h2 : s.enablerCalls = t.enablerCalls) : s = t := by
  cases s
  cases t
  simp_all

theorem checkPosition_of_valid (pos : Nat) (h : (pos == 1 || pos == 0) = true) :
    checkPosition pos = some () := by
  simp only [Bool.or_eq_true, beq_iff_eq] at h
  rcases h with h | h <;> simp [checkPosition, h]

theorem step_isSome_of_valid (op : Op) (s : VTState) (h : validOp op = true) :
    ∃ p, step op s = some p := by
  cases op
  all_goals
    first
    | exact ⟨_, rfl⟩
    | (simp only [validOp] at h
       have hcp := checkPosition_of_valid _ h
       simp [step, namedPosStream, namedPos, colorPosStream, colorPos, hcp])

theorem step_fst_of_flag (op : Op) (s : VTState) (p : VTState × String)
    (hflag : s.handleVTSequences = true) (hs : step op s = some p) : p.1 = s := by
  obtain ⟨h1, h2⟩ := step_some_spec op s p hs
  refine state_eq _ _ ?_ ?_
  · simp [h1, hflag]
  · simp [h2, hflag]

theorem run_of_flag_true (ops : List Op) (s : VTState)
    (hflag : s.handleVTSequences = true) : run s ops = s := by
  induction ops with
  | nil => rfl
  | cons op ops ih =>
    cases hstep : step op s with
    | none => simp [run, hstep]
    | some p =>
      have hp := step_fst_of_flag op s p hflag hstep
      simp [run, hstep, hp, ih]

theorem run_calls_main (ops : List Op) (s : VTState)
    (hval : ops.all validOp = true)
    (hflag : s.handleVTSequences = false) (hcalls : s.enablerCalls = 0) :
    (run s ops).enablerCalls = if ops.any triggers then 1 else 0 := by
  induction ops generalizing s with
  | nil => simp [run, hcalls]
  | cons op ops ih =>
    simp only [List.all_cons, Bool.and_eq_true] at hval
    obtain ⟨p, hstep⟩ := step_isSome_of_valid op s hval.1
    obtain ⟨h1, h2⟩ := step_some_spec op s p hstep
    simp only [run, hstep, List.any_cons]
    rcases Bool.eq_false_or_eq_true (triggers op) with ht | ht
    · have hp1 : p.1.handleVTSequences = true := by simp [h1, ht]
      have hc1 : p.1.enablerCalls = 1 := by simp [h2, ht, hflag, hcalls]
      rw [run_of_flag_true ops p.1 hp1]
      simp [hc1, ht]
    · have hp1 : p.1.handleVTSequences = false := by simp [h1, ht, hflag]
      have hc1 : p.1.enablerCalls = 0 := by simp [h2, ht, hcalls]
      rw [ih p.1 hval.2 hp1 hc1]
      simp [ht]

theorem stepState_mono (op : Op) (s : VTState)
    (hflag : s.handleVTSequences = true) :
    (stepState op s).handleVTSequences = true := by
  cases hstep : step op s with
  | none => simp [stepState, hstep, hflag]
  | some p =>
    have := (step_some_spec op s p hstep).1
    simp [stepState, hstep, this, hflag]

theorem flagTrace_all_true (ops : List Op) (s : VTState)
    (hflag : s.handleVTSequences = true) :
    ∀ x ∈ flagTrace s ops, x = true := by
  induction ops generalizing s with
  | nil => simp [flagTrace]
  | cons op ops ih =>
    cases hstep : step op s with
    | none => simp [flagTrace, hstep]
    | some p =>
      have hp : p.1.handleVTSequences = true := by
        have := (step_some_spec op s p hstep).1
        simp [this, hflag]
      simp only [flagTrace, hstep]
      intro x hx
      rcases List.mem_cons.mp hx with h | h
      · simp [h, hp]
      · exact ih p.1 hp x h

theorem riseCount_zero_of_all_true (l : List Bool)
    (h : ∀ x ∈ l, x = true) : riseCount true l = 0 := by
  induction l with
  | nil => rfl
  | cons x l ih =>
    have hx : x = true := h x (List.mem_cons_self _ _)
    subst hx
    simp only [riseCount]
    simp [ih (fun y hy => h y (List.mem_cons_of_mem _ hy))]

theorem riseCount_le_one (ops : List Op) (s : VTState) :
    riseCount s.handleVTSequences (flagTrace s ops) ≤ 1 := by
  induction ops generalizing s with
  | nil => simp [flagTrace, riseCount]
  | cons op ops ih =>
    cases hflag : s.handleVTSequences with
    | true =>
      rw [riseCount_zero_of_all_true _ (flagTrace_all_true _ _ hflag)]
      omega
    | false =>
      cases hstep : step op s with
      | none => simp [flagTrace, hstep, riseCount]
      | some p =>
        simp only [flagTrace, hstep, riseCount]
        cases hp : p.1.handleVTSequences with
        | true =>
          rw [riseCount_zero_of_all_true _ (flagTrace_all_true _ _ hp)]
          simp
        | false =>
          have := ih p.1
          rw [hp] at this
          simpa using this

end CLIStyle

namespace CLIStyle

theorem wrapOutput_eq (rq : Request) (s : VTState) (text : String)
    (hv : validReq rq = true) :
    wrapOutput rq s text = some (resolve rq ++ text ++ RESET_STYLE) := by
  cases rq with
  | named b h pos =>
    simp only [validReq] at hv
    simp [wrapOutput, namedPos, resolve, checkPosition_of_valid _ hv]
  | rgb pos r g bl =>
    simp only [validReq] at hv
    have hcp := checkPosition_of_valid _ hv
    simp only [Bool.or_eq_true, beq_iff_eq] at hv
    rcases hv with h1 | h0
    · subst h1
      simp [wrapOutput, colorPos, resolve, hcp, TEXT, colorText]
    · subst h0
      simp [wrapOutput, colorPos, resolve, hcp, TEXT, colorBackground]
  | style st =>
    cases st <;>
      simp [wrapOutput, resolve, styleSeq, bold, italic, underline, reverse]

theorem streamOutput_eq (rq : Request) (s : VTState) (os : String)
    (hv : validReq rq = true) :
    ∃ s2, streamOutput rq s os = some (s2, os ++ resolve rq) := by
  cases rq with
  | named b h pos =>
    simp only [validReq] at hv
    simp [streamOutput, namedPosStream, resolve, checkPosition_of_valid _ hv]
  | rgb pos r g bl =>
    simp only [validReq] at hv
    simp [streamOutput, colorPosStream, resolve, checkPosition_of_valid _ hv]
  | style st =>
    cases st <;>
      simp [streamOutput, resolve, styleSeq, boldStream, italicStream,
        underlineStream, reverseStream]

theorem digitChar_isDigit (k : Nat) (h : k < 10) :
    (Nat.digitChar k).isDigit = true := by
  have hall : ∀ m : Fin 10, (Nat.digitChar m.val).isDigit = true := by decide
  exact hall ⟨k, h⟩

theorem toDigitsCore_digits (fuel : Nat) :
    ∀ (n : Nat) (acc : List Char), (∀ c ∈ acc, c.isDigit = true) →
      ∀ c ∈ Nat.toDigitsCore 10 fuel n acc, c.isDigit = true := by
  induction fuel with
  | zero =>
    intro n acc hacc c hc
    exact hacc c hc
  | succ f ih =>
    intro n acc hacc c hc
    simp only [Nat.toDigitsCore] at hc
    have hd : (Nat.digitChar (n % 10)).isDigit = true :=
      digitChar_isDigit _ (Nat.mod_lt _ (by omega))
    split at hc
    · rcases List.mem_cons.mp hc with h | h
      · simp [h, hd]
      · exact hacc c h
    · refine ih (n / 10) (Nat.digitChar (n % 10) :: acc) ?_ c hc
      intro x hx
      rcases List.mem_cons.mp hx with h | h
      · simp [h, hd]
      · exact hacc x h

theorem repr_digits (n : Nat) : ∀ c ∈ (Nat.repr n).data, c.isDigit = true := by
  intro c hc
  have : (Nat.repr n).data = Nat.toDigitsCore 10 (n + 1) n [] := rfl
  rw [this] at hc
  exact toDigitsCore_digits (n + 1) n [] (by simp) c hc

theorem isDigit_ne_m (c : Char) (h : c.isDigit = true) : c ≠ 'm' := by
  intro he
  subst he
  simp at h

theorem isDigit_ne_esc (c : Char) (h : c.isDigit = true) : c ≠ '\x1b' := by
  intro he
  subst he
  simp at h

theorem isCsiB_correct (str : String) (h : isCsiB str = true) : IsCsi str := by
  unfold isCsiB at h
  rcases hd : str.data with _ | ⟨c1, _ | ⟨c2, rest⟩⟩
  · rw [hd] at h
    simp [isCsiList] at h
  · rw [hd] at h
    simp [isCsiList] at h
  · rw [hd] at h
    simp only [isCsiList, Bool.and_eq_true, beq_iff_eq, Bool.not_eq_eq_eq_not,
      Bool.not_true] at h
    obtain ⟨⟨⟨⟨hc1, hc2⟩, hlast⟩, hm⟩, hesc⟩ := h
    obtain ⟨body, hbody⟩ := List.getLast?_eq_some_iff.mp hlast
    refine ⟨body, ?_, ?_, ?_⟩
    · rw [hd, hc1, hc2, hbody]
    · intro hmem
      rw [hbody] at hm
      simp only [List.dropLast_concat] at hm
      simp [List.contains, hmem] at hm
    · intro hmem
      rw [hbody] at hesc
      simp only [List.dropLast_concat] at hesc
      simp [List.contains, hmem] at hesc

theorem resolve_isCsi (rq : Request) (hv : validReq rq = true) :
    IsCsi (resolve rq) := by
  cases rq with
  | named b h pos =>
    simp only [validReq, Bool.or_eq_true, beq_iff_eq] at hv
    have hall : ∀ (b : Bool) (h : Hue),
        isCsiB (mapLookup color_text (colorName b h)) = true ∧
        isCsiB (mapLookup color_background (colorName b h)) = true := by decide
    rcases hv with h1 | h0
    · subst h1
      simpa [resolve, TEXT] using isCsiB_correct _ (hall b h).1
    · subst h0
      simpa [resolve, TEXT] using isCsiB_correct _ (hall b h).2
  | rgb pos r g bl =>
    have hdig3 : ∀ k : Nat, ∀ c ∈ (Nat.repr k).data, c ≠ 'm' ∧ c ≠ '\x1b' :=
      fun k c hc => ⟨isDigit_ne_m c (repr_digits k c hc),
        isDigit_ne_esc c (repr_digits k c hc)⟩
    simp only [validReq, Bool.or_eq_true, beq_iff_eq] at hv
    have hshape : ∀ intro9 : List Char,
        intro9 = [ '3', '8', ';', '2', ';' ] ∨ intro9 = [ '4', '8', ';', '2', ';' ] →
        IsCsi ⟨'\x1b' :: '[' :: (intro9 ++ (Nat.repr r).data ++ [ ';' ]
          ++ (Nat.repr g).data ++ [ ';' ] ++ (Nat.repr bl).data ++ [ 'm' ])⟩ := by
      intro i9 hi9
      refine ⟨i9 ++ (Nat.repr r).data ++ [ ';' ] ++ (Nat.repr g).data
        ++ [ ';' ] ++ (Nat.repr bl).data, ?_, ?_, ?_⟩
      · simp
      · intro hmem
        simp only [List.mem_append, List.mem_singleton] at hmem
        rcases hmem with ((((h5 | hr) | hs1) | hg) | hs2) | hb
        · rcases hi9 with h | h <;> subst h <;> simp_all
        · exact (hdig3 r _ hr).1 rfl
        · simp_all
        · exact (hdig3 g _ hg).1 rfl
        · simp_all
        · exact (hdig3 bl _ hb).1 rfl
      · intro hmem
        simp only [List.mem_append, List.mem_singleton] at hmem
        rcases hmem with ((((h5 | hr) | hs1) | hg) | hs2) | hb
        · rcases hi9 with h | h <;> subst h <;> simp_all
        · exact (hdig3 r _ hr).2 rfl
        · simp_all
        · exact (hdig3 g _ hg).2 rfl
        · simp_all
        · exact (hdig3 bl _ hb).2 rfl
    rcases hv with h1 | h0
    · subst h1
      have := hshape [ '3', '8', ';', '2', ';' ] (Or.inl rfl)
      simp only [resolve, getColor, if_pos rfl]
      convert this using 2
    · subst h0
      have := hshape [ '4', '8', ';', '2', ';' ] (Or.inr rfl)
      simp only [resolve, getColor]
      rw [if_neg (by omega)]
      convert this using 2
  | style st =>
    have hall : ∀ st : TextStyle, isCsiB (styleSeq st) = true := by decide
    exact isCsiB_correct _ (hall st)

end CLIStyle

namespace CLIStyle

theorem stripAux_skip (body : List Char) (t : List Char) (hm : 'm' ∉ body) :
    stripAux true (body ++ 'm' :: t) = stripAux false t := by
  induction body with
  | nil => simp [stripAux]
  | cons c rest ih =>
    have hc : c ≠ 'm' := fun h => hm (h ▸ List.mem_cons_self _ _)
    simp only [List.cons_append, stripAux, if_neg hc]
    exact ih (fun h => hm (List.mem_cons_of_mem _ h))

theorem stripAux_false_esc (body : List Char) (t : List Char) (hm : 'm' ∉ body) :
    stripAux false ('\x1b' :: '[' :: (body ++ 'm' :: t)) = stripAux false t := by
  have h1 : stripAux false ('\x1b' :: '[' :: (body ++ 'm' :: t))
      = stripAux true ('[' :: (body ++ 'm' :: t)) := by
    simp [stripAux]
  rw [h1]
  have h2 : stripAux true ('[' :: (body ++ 'm' :: t))
      = stripAux true (body ++ 'm' :: t) := by
    simp [stripAux]
  rw [h2]
  exact stripAux_skip body t hm

theorem strip_append (t u : List Char) (ht : hasEscBr t = false)
    (hu : u.head? ≠ some '[') :
    stripAux false (t ++ u) = t ++ stripAux false u := by
  induction t with
  | nil => simp
  | cons c rest ih =>
    simp only [hasEscBr, Bool.or_eq_false_iff, Bool.and_eq_false_iff] at ht
    have hcond : ¬(c = '\x1b' ∧ (rest ++ u).head? = some '[') := by
      rintro ⟨hc, hh⟩
      cases rest with
      | nil =>
        simp at hh
        exact hu (by simp [hh])
      | cons d rest2 =>
        simp at hh
        rcases ht.1 with h | h
        · simp [hc] at h
        · simp [hh] at h
    simp only [List.cons_append, stripAux, List.append_eq, if_neg hcond]
    rw [ih ht.2]

theorem strip_wrap (seq text : String) (hcsi : IsCsi seq)
    (htext : hasEscBr text.data = false) :
    stripEsc ((seq ++ text ++ RESET_STYLE).data) = text.data := by
  obtain ⟨body, hdata, hm, _⟩ := hcsi
  have hreset : (RESET_STYLE).data = [ '\x1b', '[', '0', 'm' ] := rfl
  have h1 : (seq ++ text ++ RESET_STYLE).data
      = '\x1b' :: '[' :: (body ++ 'm' :: (text.data ++ RESET_STYLE.data)) := by
    simp [String.data_append, hdata, List.append_assoc]
  rw [stripEsc, h1, stripAux_false_esc _ _ hm]
  rw [strip_append _ _ htext (by rw [hreset]; simp)]
  have h2 : stripAux false RESET_STYLE.data = [] := rfl
  rw [h2, List.append_nil]

end CLIStyle

namespace CLIStyle

set_option maxRecDepth 10000 in
theorem decimal_le255 (n : Nat) (h : n ≤ 255) :
    isDecimalNoLeadZeros n (Nat.repr n) := by
  have hall : ∀ m : Fin 256, isDecimalNoLeadZeros m.val (Nat.repr m.val) := by
    decide
  exact hall ⟨n, by omega⟩

/-- C1 counterexample: the claim says the first invocation of any entry point
triggers the capability enabler exactly once; but a first call to the plain
`red(const string&)` overload (src 567-570, which contains no gate line)
leaves the enabler call count at 0, not 1. -/
theorem c1_counterexample :
    (run initState [ Op.namedStr false Hue.red "x" ]).enablerCalls = 0 ∧
    (run initState [ Op.namedStr false Hue.red "x" ]).enablerCalls ≠ 1 := by
  exact ⟨rfl, by decide⟩

/-- C1 (amended): only the gated subset of entry points (the six RGB
`color`/`on_color` overloads, the plain-`grey` family, the four styles and
`reset`) trigger the capability enabler.  Along any sequence of invocations
with valid positions, starting from the initial process state, the enabler
runs exactly once if some gated entry point is invoked (on the first such
invocation, before its sequence is resolved or written) and never otherwise;
in particular no later invocation re-triggers it.  The `red`..`white` and all
`bright_*` named-color entry points never trigger it. -/
theorem c1_gating_once_amended (ops : List Op) (hval : ops.all validOp = true) :
    (run initState ops).enablerCalls = if ops.any triggers then 1 else 0 :=
  run_calls_main ops initState hval rfl rfl

theorem c1_gating_once_witness :
    ([ Op.bold "a", Op.namedStr false Hue.red "b", Op.reset "c" ].all validOp
        = true) ∧
    (run initState
        [ Op.bold "a", Op.namedStr false Hue.red "b", Op.reset "c" ]).enablerCalls
      = if [ Op.bold "a", Op.namedStr false Hue.red "b",
             Op.reset "c" ].any triggers then 1 else 0 :=
  ⟨by decide, c1_gating_once_amended _ (by decide)⟩

/-- C2: for every request with a defined target and every text, the
string-wrapping form returns exactly the resolved escape sequence, then the
text unchanged, then the reset sequence; in particular
`red(text) = "\x1b[31m" + text + "\x1b[0m"`. -/
theorem c2_wrap_is_resolve_text_reset :
    (∀ (rq : Request) (s : VTState) (text : String), validReq rq = true →
      wrapOutput rq s text = some (resolve rq ++ text ++ RESET_STYLE)) ∧
    (∀ (s : VTState) (text : String),
      (namedStr false Hue.red s text).2 = "\x1b[31m" ++ text ++ "\x1b[0m") := by
  refine ⟨fun rq s text hv => wrapOutput_eq rq s text hv, fun s text => rfl⟩

theorem c2_wrap_witness :
    validReq (Request.named false Hue.red 1) = true ∧
    wrapOutput (Request.named false Hue.red 1) initState "hello"
      = some (resolve (Request.named false Hue.red 1) ++ "hello" ++ RESET_STYLE) :=
  ⟨by decide, c2_wrap_is_resolve_text_reset.1 _ initState "hello" (by decide)⟩

/-- C3: for the 8 base hues in the order grey, red, green, yellow, blue,
magenta, cyan, white (k = 0..7), the lookup tables hold exactly
`ESC[3<k>m` (normal foreground), `ESC[1;3<k>m` (bright foreground),
`ESC[4<k>m` (normal background) and `ESC[1;4<k>m` (bright background). -/
theorem c3_table_literals : ∀ k : Fin 8,
    mapLookup color_text (colorName false (hueAt k))
      = "\x1b[3" ++ Nat.repr k.val ++ "m" ∧
    mapLookup color_text (colorName true (hueAt k))
      = "\x1b[1;3" ++ Nat.repr k.val ++ "m" ∧
    mapLookup color_background (colorName false (hueAt k))
      = "\x1b[4" ++ Nat.repr k.val ++ "m" ∧
    mapLookup color_background (colorName true (hueAt k))
      = "\x1b[1;4" ++ Nat.repr k.val ++ "m" := by
  decide

/-- C4: for r, g, b in 0..255 the RGB generator yields exactly
`ESC[38;2;R;G;Bm` (target = foreground/TEXT) or `ESC[48;2;R;G;Bm`
(background), with R, G, B the decimal digit strings of the components, no
leading zeros; with the claim's two concrete examples. -/
theorem c4_rgb_format :
    (∀ r g b : Nat, r ≤ 255 → g ≤ 255 → b ≤ 255 →
      getColor 1 r g b = "\x1b[38;2;" ++ Nat.repr r ++ ";" ++ Nat.repr g
          ++ ";" ++ Nat.repr b ++ "m" ∧
      getColor 0 r g b = "\x1b[48;2;" ++ Nat.repr r ++ ";" ++ Nat.repr g
          ++ ";" ++ Nat.repr b ++ "m" ∧
      isDecimalNoLeadZeros r (Nat.repr r) ∧
      isDecimalNoLeadZeros g (Nat.repr g) ∧
      isDecimalNoLeadZeros b (Nat.repr b)) ∧
    getColor 1 255 0 128 = "\x1b[38;2;255;0;128m" ∧
    getColor 0 0 0 0 = "\x1b[48;2;0;0;0m" := by
  refine ⟨fun r g b hr hg hb =>
    ⟨by simp [getColor], by simp [getColor], decimal_le255 r hr,
      decimal_le255 g hg, decimal_le255 b hb⟩, by decide, by decide⟩

theorem c4_rgb_witness :
    (255 : Nat) ≤ 255 ∧
    getColor 1 255 0 128 = "\x1b[38;2;" ++ Nat.repr 255 ++ ";" ++ Nat.repr 0
      ++ ";" ++ Nat.repr 128 ++ "m" :=
  ⟨by decide, (c4_rgb_format.1 255 0 128 (by decide) (by decide) (by decide)).1⟩

/-- C5: evaluation at the failing inputs.  `on_color<0,0,0>(text)` — whose own
`@brief` says it applies the color to the background — returns the FOREGROUND
`38;2` wrap, and the no-target `color<0,0,0>(ostream&)` writes the BACKGROUND
`48;2` sequence, contradicting the claim (and the source's documentation) that
the no-target `color` stream form is foreground and `on_color` is
background. -/
theorem c5_swapped_family_eval :
    (on_color 0 0 0 initState "t").2 = "\x1b[38;2;0;0;0m" ++ "t" ++ "\x1b[0m" ∧
    (on_color 0 0 0 initState "t").2 ≠ "\x1b[48;2;0;0;0m" ++ "t" ++ "\x1b[0m" ∧
    (colorStream 0 0 0 initState "").2 = "\x1b[48;2;0;0;0m" ∧
    (colorStream 0 0 0 initState "").2 ≠ "\x1b[38;2;0;0;0m" := by
  refine ⟨by decide, by decide, by decide, by decide⟩

/-- C6: the process-wide flag `handleVTSequences` starts `false`; once `true`
it stays `true` across every further invocation; and along any sequence of
invocations from any state it transitions `false → true` at most once. -/
theorem c6_flag_write_once :
    initState.handleVTSequences = false ∧
    (∀ (op : Op) (s : VTState), s.handleVTSequences = true →
      (stepState op s).handleVTSequences = true) ∧
    (∀ (s : VTState) (ops : List Op),
      riseCount s.handleVTSequences (flagTrace s ops) ≤ 1) :=
  ⟨rfl, fun op s h => stepState_mono op s h, fun s ops => riseCount_le_one ops s⟩

theorem c6_flag_witness :
    (VTState.mk true 1).handleVTSequences = true ∧
    (stepState (Op.bold "x") (VTState.mk true 1)).handleVTSequences = true :=
  ⟨rfl, c6_flag_write_once.2.1 (Op.bold "x") (VTState.mk true 1) rfl⟩

/-- C7 counterexample: the claim includes input strings containing the ESC
byte without restriction, but for the text `"\x1b["` the stripped wrap output
of red-foreground is `""`, not the original text: the text's own `ESC [`
opens a bogus sequence that swallows the trailing reset. -/
theorem c7_counterexample :
    wrapOutput (Request.named false Hue.red 1) initState "\x1b["
      = some "\x1b[31m\x1b[\x1b[0m" ∧
    stripEsc (("\x1b[31m\x1b[\x1b[0m" : String).data) = [] ∧
    (("\x1b[" : String).data ≠ ([] : List Char)) := by
  refine ⟨by decide, by decide, by decide⟩

/-- C7 (amended): for every color/style/RGB request with a defined target and
every input text in which the ESC byte is never immediately followed by `[`
(the empty string and texts containing lone ESC bytes included), removing
every `ESC [ ... m` substring from the string-wrapping form's output yields
exactly the original text. -/
theorem c7_strip_roundtrip_amended (rq : Request) (s : VTState) (text : String)
    (hv : validReq rq = true) (ht : hasEscBr text.data = false) :
    ∃ out, wrapOutput rq s text = some out ∧ stripEsc out.data = text.data :=
  ⟨resolve rq ++ text ++ RESET_STYLE, wrapOutput_eq rq s text hv,
    strip_wrap _ _ (resolve_isCsi rq hv) ht⟩

theorem c7_strip_witness :
    validReq (Request.style TextStyle.bold) = true ∧
    hasEscBr (("hi\x1bq" : String).data) = false ∧
    ∃ out, wrapOutput (Request.style TextStyle.bold) initState "hi\x1bq"
        = some out ∧ stripEsc out.data = (("hi\x1bq" : String).data) :=
  ⟨by decide, by decide,
    c7_strip_roundtrip_amended _ initState _ (by decide) (by decide)⟩

/-- C8: the stream form of every request appends to the stream exactly the
resolved escape sequence — a single `ESC [ ... m` control sequence, hence no
payload text and no reset — leaving the previous buffer contents unchanged
at the front; likewise the no-target named stream forms append exactly
their table entries. -/
theorem c8_stream_appends_sequence :
    (∀ (rq : Request) (s : VTState) (os : String), validReq rq = true →
      (∃ s2, streamOutput rq s os = some (s2, os ++ resolve rq)) ∧
      IsCsi (resolve rq)) ∧
    (∀ (b : Bool) (h : Hue) (s : VTState) (os : String),
      (namedStream b h s os).2 = os ++ mapLookup color_text (colorName b h) ∧
      (namedOnStream b h s os).2
        = os ++ mapLookup color_background (colorName b h)) :=
  ⟨fun rq s os hv => ⟨streamOutput_eq rq s os hv, resolve_isCsi rq hv⟩,
    fun _ _ _ _ => ⟨rfl, rfl⟩⟩

theorem c8_stream_witness :
    validReq (Request.named false Hue.red 1) = true ∧
    ((∃ s2, streamOutput (Request.named false Hue.red 1) initState "abc"
        = some (s2, "abc" ++ resolve (Request.named false Hue.red 1))) ∧
      IsCsi (resolve (Request.named false Hue.red 1))) :=
  ⟨by decide, c8_stream_appends_sequence.1 _ initState "abc" (by decide)⟩

/-- C9: bold, italic, underline and reverse resolve to exactly `ESC[1m`,
`ESC[3m`, `ESC[4m`, `ESC[7m`, and reset to `ESC[0m` — both in the `styles`
lookup table and in the style/reset operations (string and stream forms). -/
theorem c9_style_literals :
    mapLookup styles "bold" = "\x1b[1m" ∧
    mapLookup styles "italic" = "\x1b[3m" ∧
    mapLookup styles "underline" = "\x1b[4m" ∧
    mapLookup styles "reverse" = "\x1b[7m" ∧
    RESET_STYLE = "\x1b[0m" ∧
    (∀ (s : VTState) (text : String),
      (bold s text).2 = "\x1b[1m" ++ text ++ "\x1b[0m" ∧
      (italic s text).2 = "\x1b[3m" ++ text ++ "\x1b[0m" ∧
      (underline s text).2 = "\x1b[4m" ++ text ++ "\x1b[0m" ∧
      (reverse s text).2 = "\x1b[7m" ++ text ++ "\x1b[0m") ∧
    (∀ (s : VTState) (os : String),
      (boldStream s os).2 = os ++ "\x1b[1m" ∧
      (italicStream s os).2 = os ++ "\x1b[3m" ∧
      (underlineStream s os).2 = os ++ "\x1b[4m" ∧
      (reverseStream s os).2 = os ++ "\x1b[7m" ∧
      (resetStream s os).2 = os ++ "\x1b[0m") :=
  ⟨by decide, by decide, by decide, by decide, rfl,
    fun s text => ⟨rfl, rfl, rfl, rfl⟩,
    fun s os => ⟨rfl, rfl, rfl, rfl, rfl⟩⟩

/-- C10: the string overload of `reset` appends the reset sequence with no
opening sequence prepended: `reset(text) = text + "\x1b[0m"` exactly. -/
theorem c10_reset_appends_only (s : VTState) (text : String) :
    (reset s text).2 = text ++ "\x1b[0m" := rfl

end CLIStyle
